import Mathlib

/-!
# Verification of the easy-highlight plugin core (src/main.ts, extended snapshot)

Shallow embedding of the plugin's core logic:

* JS strings are `String`/`List Char`; indices are character offsets (the
  sources only ever index ASCII text, where JS UTF-16 indices coincide).
* JS numbers are embedded as `Nat`/`Int` with explicit 32-bit reductions where
  the source uses bitwise operators (`| 0`, `>>`, `&`); `parseInt` results are
  modelled exactly, which matches JS for values below `2^53` (the double
  exactness bound; larger digit strings would round in JS, which we do not
  model).  `Math.random()` is modelled as an explicit rational argument
  `rand ∈ [0,1)`, and floating-point arithmetic on it by exact rational
  arithmetic.
* The regex scans of the source are embedded as executable character scans
  with the exact match semantics of the JS regexes involved
  (`/<mark[^>]*>(.*?)<\/mark>/g`, `/<\/?mark[^>]*>/g`,
  `/<mark[^>]*highlightindex=["']?(\d+)["']?[^>]*>/`).
-/

/-! ## JS number helpers -/

/-- Floor of a rational, computably (`num / den` with Euclidean division and a
positive denominator is the floor).  Models `Math.floor` on a real value. -/
def ratFloor (q : ℚ) : ℤ := q.num / q.den

theorem ratFloor_eq_floor (q : ℚ) : ratFloor q = ⌊q⌋ := (Rat.floor_def).symm

/-- JS `ToInt32` of a nonnegative integer: reduce mod `2^32` into
`[-2^31, 2^31)`.  This is what `n | 0` computes for a nonnegative integral
double `n < 2^53`. -/
def toInt32 (n : Nat) : ℤ :=
  let m : Nat := n % 2 ^ 32
  if m < 2 ^ 31 then (m : ℤ) else (m : ℤ) - 2 ^ 32

/-- Hex digit value of a character, by code point, exactly the digit set of
JS `parseInt(_, 16)`: `0-9`, `a-f`, `A-F`. -/
def hexDigitVal (c : Char) : Option Nat :=
  let n := c.toNat
  if 48 ≤ n ∧ n ≤ 57 then some (n - 48)
  else if 97 ≤ n ∧ n ≤ 102 then some (n - 87)
  else if 65 ≤ n ∧ n ≤ 70 then some (n - 55)
  else none

/-- ES whitespace and line terminators skipped by `parseInt` (tab, LF, VT, FF,
CR, space, NBSP, LS, PS, BOM; the rarer Unicode space code points are not used
by any input considered here). -/
def isJsWs (c : Char) : Bool :=
  let n := c.toNat
  (9 ≤ n ∧ n ≤ 13) ∨ n = 32 ∨ n = 160 ∨ n = 8232 ∨ n = 8233 ∨ n = 65279

/-- `parseInt(_, 16)` strips a leading `0x`/`0X` before reading digits. -/
def strip0x (l : List Char) : List Char :=
  match l with
  | a :: b :: rest => if a = '0' ∧ (b = 'x' ∨ b = 'X') then rest else a :: b :: rest
  | _ => l

/-- Value of the longest hex-digit run at the front of the list; `none` when it
is empty (JS `NaN`). -/
def parseHexDigits (l : List Char) : Option Nat :=
  match l.takeWhile (fun c => (hexDigitVal c).isSome) with
  | [] => none
  | ds => some (ds.foldl (fun a c => 16 * a + (hexDigitVal c).getD 0) 0)

/-- Model of JS `parseInt(s, 16)`: skip whitespace, optional sign, optional
`0x` prefix, then the longest hex-digit prefix; `none` models `NaN`.
Exact for results below `2^53`. -/
def jsParseIntHex (s : List Char) : Option ℤ :=
  match s.dropWhile isJsWs with
  | [] => none
  | c :: rest =>
    if c = '-' then (parseHexDigits (strip0x rest)).map (fun n => -(n : ℤ))
    else if c = '+' then (parseHexDigits (strip0x rest)).map (fun n => (n : ℤ))
    else (parseHexDigits (strip0x (c :: rest))).map (fun n => (n : ℤ))

/-! ## ColorModel (`hexToRGB`, `rgbToHex`, `rgbToHue`, `sortColorsByBlueToRed`) -/

/-- An `{r, g, b}` object as produced by `hexToRGB`. -/
structure RGB where
  r : Nat
  g : Nat
  b : Nat
  deriving DecidableEq, Repr

/-- `hex.replace(/^#/, '')`: drop one leading `#` if present. -/
def stripHash (l : List Char) : List Char :=
  match l with
  | '#' :: rest => rest
  | l => l

/-- The channel extraction of `hexToRGB`: `(bigint >> 16) & 255`,
`(bigint >> 8) & 255`, `bigint & 255`.  The JS bitwise operators act on
`ToInt32(bigint)`; for any integer `n`, `(ToInt32 n >> k) & 255` equals
`((n mod 2^32) / 2^k) mod 256`, which is the form used here.  `parseInt`
returning `NaN` (`none`) makes every bitwise expression evaluate to `0`. -/
def rgbOfParsed : Option ℤ → RGB
  | none => ⟨0, 0, 0⟩
  | some n =>
    let m := (n % 2 ^ 32).toNat
    ⟨m / 2 ^ 16 % 256, m / 2 ^ 8 % 256, m % 256⟩

/-- Embedding of `hexToRGB` (src/main.ts:350-363): drop one leading `#`,
double each character of a 3-character string, `parseInt(trimmedHex, 16)`,
extract the three channels. -/
def hexToRGB (hex : String) : RGB :=
  let trimmedHex : List Char := stripHash hex.data
  let t2 : List Char :=
    if trimmedHex.length = 3 then trimmedHex.foldr (fun c acc => c :: c :: acc) []
    else trimmedHex
  rgbOfParsed (jsParseIntHex t2)

/-- JS `c.toString(16).padStart(2, '0')` (src/main.ts:346): lowercase hex
digits, left-padded with `'0'` to length 2. -/
def toHex (c : Nat) : List Char :=
  let l := Nat.toDigits 16 c
  if l.length < 2 then List.replicate (2 - l.length) '0' ++ l else l

/-- Embedding of `rgbToHex` (src/main.ts:345-348). -/
def rgbToHex (c : RGB) : String :=
  ⟨'#' :: (toHex c.r ++ toHex c.g ++ toHex c.b)⟩

/-- Truncation toward zero, as JS number-to-integer conversion in `%`. -/
def ratTrunc (q : ℚ) : ℤ := if 0 ≤ q then ⌊q⌋ else -⌊-q⌋

/-- JS `x % m` on numbers: truncated remainder (`x - m * trunc (x / m)`).
All arguments in `rgbToHue` are nonnegative, where this equals the floored
remainder. -/
def jsMod (x m : ℚ) : ℚ := x - m * ratTrunc (x / m)

/-- Embedding of `rgbToHue` (src/main.ts:365-381), with JS doubles replaced by
exact rationals.  The branch order (achromatic, red, green, blue) is the
source's. -/
def rgbToHue (c : RGB) : ℚ :=
  let rr : ℚ := (c.r : ℚ) / 255
  let gg : ℚ := (c.g : ℚ) / 255
  let bb : ℚ := (c.b : ℚ) / 255
  let mx := max rr (max gg bb)
  let mn := min rr (min gg bb)
  if mx = mn then 0
  else if mx = rr then jsMod (60 * ((gg - bb) / (mx - mn)) + 360) 360
  else if mx = gg then jsMod (60 * ((bb - rr) / (mx - mn)) + 120) 360
  else if mx = bb then jsMod (60 * ((rr - gg) / (mx - mn)) + 240) 360
  else 0

/-- The ordering used by the comparator `rgbToHue(b) - hueToHue(a)` in
`sortColorsByBlueToRed`: `a` may stay before `b` iff `hue b ≤ hue a`
(descending hue). -/
def hueOrder (a b : String × RGB) : Prop := rgbToHue b.2 ≤ rgbToHue a.2

instance : DecidableRel hueOrder := fun a b =>
  inferInstanceAs (Decidable (rgbToHue b.2 ≤ rgbToHue a.2))

instance : IsTotal (String × RGB) hueOrder :=
  ⟨fun a b => le_total (rgbToHue b.2) (rgbToHue a.2)⟩

instance : IsTrans (String × RGB) hueOrder :=
  ⟨fun _ _ _ h1 h2 => le_trans h2 h1⟩

/-- Embedding of `sortColorsByBlueToRed` (src/main.ts:383-394): map each hex
string to a `{hex, rgb}` pair, sort by hue descending, map back through
`rgbToHex`.  `Array.prototype.sort` is required by the ECMAScript spec to be
stable, and with a comparator derived from a key function every stable sort
produces the same list, so it is embedded as an insertion sort on `hueOrder`. -/
def sortColorsByBlueToRed (colors : List String) : List String :=
  ((colors.map (fun hex => (hex, hexToRGB hex))).insertionSort hueOrder).map
    (fun c => rgbToHex c.2)

/-! ## MarkScanner -/

/-- Length of the match of `/<mark[^>]*>/` starting exactly at the front of
`t`, i.e. `"<mark"`, then everything up to and including the first `'>'`
(the greedy `[^>]*` cannot cross a `'>'`, so backtracking stops at the first
one). -/
def markOpenLen (t : List Char) : Option Nat :=
  if "<mark".data.isPrefixOf t then
    (List.findIdx? (fun c => c = '>') (t.drop 5)).map (fun j => 5 + j + 1)
  else none

/-- Relative index of the first `"</mark>"` occurrence reachable by the lazy
`(.*?)`: the dot does not match a line terminator, so the search fails upon
reaching a newline first. -/
def findCloseMark : List Char → Option Nat
  | [] => none
  | c :: rest =>
    if "</mark>".data.isPrefixOf (c :: rest) then some 0
    else if c = '\n' then none
    else (findCloseMark rest).map (· + 1)

/-- Length of the match of `/<mark[^>]*>(.*?)<\/mark>/` starting exactly at
the front of `t`, if any. -/
def markMatchLen (t : List Char) : Option Nat :=
  match markOpenLen t with
  | none => none
  | some o =>
    match findCloseMark (t.drop o) with
    | none => none
    | some k => some (o + k + 7)

/-- The `regex.exec` loop with the `g` flag: try each position left to right;
on a match, emit its `[start, end)` span and resume at its end.  Fuel is the
remaining text length (every step consumes at least one character). -/
def findMarksAux : Nat → List Char → Nat → List (Nat × Nat)
  | 0, _, _ => []
  | _ + 1, [], _ => []
  | fuel + 1, c :: rest, i =>
    match markMatchLen (c :: rest) with
    | some len => (i, i + len) :: findMarksAux fuel ((c :: rest).drop len) (i + len)
    | none => findMarksAux fuel rest (i + 1)

/-- All `[start, end)` spans of `/<mark[^>]*>(.*?)<\/mark>/g` matches in a
line (the `while ((match = markRegex.exec(lineContent)))` loop,
src/main.ts:270-282). -/
def findMarksInLine (line : String) : List (Nat × Nat) :=
  findMarksAux line.data.length line.data 0

/-- Embedding of `countMarkElements` (src/main.ts:320-325):
`content.match(/<mark[^>]*>(.*?)<\/mark>/g)` yields the same matches as the
exec loop; the count is their number (0 for `null`). -/
def countMarkElements (content : String) : Nat :=
  (findMarksAux content.data.length content.data 0).length

/-- Length of the match of `/<\/?mark[^>]*>/` starting exactly at the front of
`t`. -/
def tagMatchLen (t : List Char) : Option Nat :=
  if "<mark".data.isPrefixOf t then
    (List.findIdx? (fun c => c = '>') (t.drop 5)).map (fun j => 5 + j + 1)
  else if "</mark".data.isPrefixOf t then
    (List.findIdx? (fun c => c = '>') (t.drop 6)).map (fun j => 6 + j + 1)
  else none

/-- `markContent.replace(/<\/?mark[^>]*>/g, '')` (src/main.ts:288): delete
every tag match, keep everything else. -/
def stripMarkTagsAux : Nat → List Char → List Char
  | 0, t => t
  | _ + 1, [] => []
  | fuel + 1, c :: rest =>
    match tagMatchLen (c :: rest) with
    | some len => stripMarkTagsAux fuel ((c :: rest).drop len)
    | none => c :: stripMarkTagsAux fuel rest

def stripMarkTags (s : List Char) : List Char :=
  stripMarkTagsAux s.length s

/-- After the literal `highlightindex=`, `["']?` optionally consumes one quote
character (`"` or `'`, code point 39), then `(\d+)` captures a nonempty
maximal digit run.  If a quote is present but no digit follows, backtracking
the optional quote cannot help (the quote itself is not a digit), so the
simple reading is exact. -/
def hiDigits (w : List Char) : Option Nat :=
  let w2 := match w with
    | c :: rest => if c.toNat = 34 ∨ c.toNat = 39 then rest else c :: rest
    | [] => []
  match w2.takeWhile (fun c => c.isDigit) with
  | [] => none
  | ds => some (ds.foldl (fun a c => 10 * a + (c.toNat - 48)) 0)

/-- Greedy `[^>]*` before the literal: the engine tries the longest prefix
first, so the last occurrence of `highlightindex=` in the window (followed by
an optional quote and at least one digit) wins. -/
def lastHiOccurrence : List Char → Option Nat
  | [] => none
  | c :: rest =>
    match lastHiOccurrence rest with
    | some v => some v
    | none =>
      if "highlightindex=".data.isPrefixOf (c :: rest) then
        hiDigits ((c :: rest).drop 15)
      else none

/-- Match of `/<mark[^>]*highlightindex=["']?(\d+)["']?[^>]*>/` starting
exactly at the front of `t`: every regex component before the final `'>'`
matches only non-`'>'` characters, so the whole match sits inside the window
between `"<mark"` and the first `'>'` after it. -/
def hiMatchAt (t : List Char) : Option Nat :=
  if "<mark".data.isPrefixOf t then
    match List.findIdx? (fun c => c = '>') (t.drop 5) with
    | none => none
    | some j => lastHiOccurrence ((t.drop 5).take j)
  else none

/-- `markRegex.exec(content)` for the non-global highlightindex regex
(src/main.ts:332-334): the captured digits of the leftmost match, parsed by
`parseInt(match[1], 10)` (digits only, so never `NaN`). -/
def findFirstHighlightIndexAux : List Char → Option Nat
  | [] => none
  | c :: rest =>
    match hiMatchAt (c :: rest) with
    | some v => some v
    | none => findFirstHighlightIndexAux rest

def findFirstHighlightIndex (content : String) : Option Nat :=
  findFirstHighlightIndexAux content.data

/-! ## HighlightEngine -/

/-- Embedding of `getRandomBetween` (src/main.ts:314-316):
`Math.floor(Math.random() * (max - min + 1)) + min`, with `Math.random()`
passed in as `rand`. -/
def getRandomBetween (min max : ℤ) (rand : ℚ) : ℤ :=
  ratFloor (rand * ((max : ℚ) - (min : ℚ) + 1)) + min

/-- Embedding of `getColorIndexOffset` (src/main.ts:327-342): the first
highlightindex attribute in the document, put through `parseInt(_, 10) | 0`
(`toInt32`); otherwise `getRandomBetween(0, colors.length)`. -/
def getColorIndexOffset (content : String) (colors : List String) (rand : ℚ) : ℤ :=
  match findFirstHighlightIndex content with
  | some v => toInt32 v
  | none => getRandomBetween 0 (colors.length : ℤ) rand

/-- The overlap test of src/main.ts:278:
`selectedStart < markEndIndex && selectedEnd > markStartIndex`. -/
def overlapsSelection (selectedStart selectedEnd : Nat) (span : Nat × Nat) : Bool :=
  selectedStart < span.2 ∧ selectedEnd > span.1

/-- The spans collected in `marksToRemove` (src/main.ts:270-282): every mark
span of the current line whose range overlaps the selection. -/
def marksToRemove (line : String) (selectedStart selectedEnd : Nat) : List (Nat × Nat) :=
  (findMarksInLine line).filter (overlapsSelection selectedStart selectedEnd)

/-- `lineContent.slice(start, end)` for in-range offsets. -/
def jsSlice (l : List Char) (s e : Nat) : List Char :=
  (l.take e).drop s

/-- `editor.replaceRange(repl, {ch := s}, {ch := e})` on a single line:
splice `repl` over `[s, e)` of the current buffer. -/
def replaceRange (cur : List Char) (s e : Nat) (repl : List Char) : List Char :=
  cur.take s ++ repl ++ cur.drop e

/-- Outcome of one toggle action on the editor. -/
inductive ToggleResult where
  /-- Empty selection: no branch taken, no edit. -/
  | noop : ToggleResult
  /-- Removal path: the current line after the sequence of `replaceRange`
  edits. -/
  | removal (newLine : String) : ToggleResult
  /-- Insertion path: the text passed to `editor.replaceSelection`. -/
  | insertion (inserted : String) : ToggleResult
  deriving DecidableEq, Repr

/-- JS `this.settings.colors[colorIndex]` interpolated into a template
literal: an in-range index reads the palette, everything else (including the
`NaN` index that `markCount % 0` produces on an empty palette) gives
`undefined`, which the template renders as the string `"undefined"`. -/
def jsIndexString (colors : List String) (i : Option ℤ) : String :=
  match i with
  | none => "undefined"
  | some i => if 0 ≤ i then (colors.get? i.toNat).getD "undefined" else "undefined"

/-- The insertion branch of `highlightSelectedText` (src/main.ts:292-309):
`colorIndex = indexOffset + markCount % colors.length` (JS precedence: `%`
binds before `+`; `markCount % 0` is `NaN`, propagated here as `none`), then
the `<mark>` markup, with the `highlightindex` attribute exactly when
`markCount === 0`. -/
def buildHighlight (selectedText : List Char) (markCount : Nat) (indexOffset : ℤ)
    (colors : List String) : String :=
  let colorIndex : Option ℤ :=
    if colors.length = 0 then none
    else some (indexOffset + (markCount % colors.length : Nat))
  let highlightColor := jsIndexString colors colorIndex
  if markCount = 0 then
    "<mark highlightindex=\"" ++ toString indexOffset ++
      "\" style=\"background-color: " ++ highlightColor ++ ";\">" ++
      ⟨selectedText⟩ ++ "</mark>"
  else
    "<mark style=\"background-color: " ++ highlightColor ++ ";\">" ++
      ⟨selectedText⟩ ++ "</mark>"

/-- Embedding of `highlightSelectedText` (src/main.ts:255-312) for a
single-line selection `[selectedStart, selectedEnd)` of the current line:
if the selection is empty, do nothing; if any mark span of the line overlaps
it, unwrap each overlapping span (tag slices read from the original line,
edits applied sequentially to the mutating buffer, exactly as the `forEach`
over `replaceRange` does); otherwise insert a new highlight built from the
document-wide mark count and the highlight index offset. -/
def highlightSelectedText (line : String) (selectedStart selectedEnd : Nat)
    (content : String) (colors : List String) (rand : ℚ) : ToggleResult :=
  let selectedText := jsSlice line.data selectedStart selectedEnd
  if selectedText.isEmpty then .noop
  else
    let toRemove := marksToRemove line selectedStart selectedEnd
    if toRemove.isEmpty then
      let markCount := countMarkElements content
      let indexOffset := getColorIndexOffset content colors rand
      .insertion (buildHighlight selectedText markCount indexOffset colors)
    else
      .removal ⟨toRemove.foldl
        (fun cur se => replaceRange cur se.1 se.2 (stripMarkTags (jsSlice line.data se.1 se.2)))
        line.data⟩

/-! ## Spec-side definitions (for the round-trip claim C7)

These follow the specification's words, not the source, and are only used to
compare against the source-derived definitions above. -/

/-- Lowercase a hex digit character (uppercase `A`-`F` to `a`-`f`, code point
plus 32; everything else unchanged). -/
def lowerHexChar (c : Char) : Char :=
  Char.ofNat (if 65 ≤ c.toNat ∧ c.toNat ≤ 70 then c.toNat + 32 else c.toNat)

/-- Spec: "3-digit shorthand expanded by doubling each nibble-pair". -/
def expandShorthand (l : List Char) : List Char :=
  if l.length = 3 then l.foldr (fun c acc => c :: c :: acc) [] else l

/-- Spec: the "canonical 6-digit lowercase form prefixed with `#`" of a valid
hex color string. -/
def canonicalHex (s : String) : String :=
  ⟨'#' :: (expandShorthand (stripHash s.data)).map lowerHexChar⟩

/-- Spec: "valid 3- or 6-digit hex color string (leading `#` optional, upper-
or lower-case digits)". -/
def isValidHexColor (s : String) : Bool :=
  let t := stripHash s.data
  (t.length = 3 ∨ t.length = 6) ∧ t.all (fun c => (hexDigitVal c).isSome)

/-- Folded value of a hex digit string, as `parseInt(_, 16)` computes it. -/
def hexFold (l : List Char) : Nat :=
  l.foldl (fun a c => 16 * a + (hexDigitVal c).getD 0) 0

/-! ## Shared helper lemmas -/

/-- On the insertion path (non-empty selection, no overlapping mark on the
current line), the toggle inserts the built markup. -/
theorem highlightSelectedText_insertion_eq (line : String) (f t : Nat) (content : String)
    (colors : List String) (rand : ℚ)
    (hsel : (jsSlice line.data f t).isEmpty = false)
    (hrem : marksToRemove line f t = []) :
    highlightSelectedText line f t content colors rand =
      .insertion (buildHighlight (jsSlice line.data f t) (countMarkElements content)
        (getColorIndexOffset content colors rand) colors) := by
  simp [highlightSelectedText, hrem, hsel]

/-- When the document has no mark with a `highlightindex` attribute, the
offset is the random draw `Math.floor(rand * (colors.length + 1))`. -/
theorem getColorIndexOffset_of_none (content : String) (colors : List String) (rand : ℚ)
    (h : findFirstHighlightIndex content = none) :
    getColorIndexOffset content colors rand = ⌊rand * ((colors.length : ℚ) + 1)⌋ := by
  simp [getColorIndexOffset, h, getRandomBetween, ratFloor_eq_floor]

/-- When the document has a mark with a `highlightindex` attribute, the
offset is its value reduced to a signed 32-bit integer, whatever `rand` is. -/
theorem getColorIndexOffset_of_some (content : String) (colors : List String) (rand : ℚ)
    (v : Nat) (h : findFirstHighlightIndex content = some v) :
    getColorIndexOffset content colors rand = toInt32 v := by
  simp [getColorIndexOffset, h]

/-! ## Claims -/

/-- C1 (code bug): on the insertion path the source computes
`colorIndex = indexOffset + markCount % colors.length` — JS `%` binds tighter
than `+`, so with palette `["#0000ff","#00ff00","#ff0000"]`, a document whose
two marks anchor the offset at `2`, and `markCount = 2`, the index is
`2 + (2 % 3) = 4`, out of bounds, and the inserted markup reads
`background-color: undefined` — not the palette element
`(offset + markCount) mod 3 = 1`, i.e. `"#00ff00"`, that the claim (and the
source's own comment "Ensure we stay within bounds") promises. -/
theorem C1_colorIndex_out_of_bounds :
    countMarkElements "<mark highlightindex=2>a</mark><mark>b</mark>" = 2 ∧
    getColorIndexOffset "<mark highlightindex=2>a</mark><mark>b</mark>"
      ["#0000ff", "#00ff00", "#ff0000"] 0 = 2 ∧
    highlightSelectedText "xyz" 0 3 "<mark highlightindex=2>a</mark><mark>b</mark>"
      ["#0000ff", "#00ff00", "#ff0000"] 0 =
      .insertion "<mark style=\"background-color: undefined;\">xyz</mark>" ∧
    ["#0000ff", "#00ff00", "#ff0000"].get? ((2 + 2) % 3) = some "#00ff00" := by
  refine ⟨by decide, by decide, by decide, by decide⟩

/-- C2 (code bug): with an empty palette the insertion path is not guarded:
the toggle still applies an edit, wrapping the selection in a mark whose style
reads `background-color: undefined` (from `colors[NaN]`), and no
`NoColorsConfigured` error exists anywhere in the source. -/
theorem C2_empty_palette_still_edits :
    highlightSelectedText "hi" 0 2 "" ([] : List String) 0 =
      .insertion "<mark highlightindex=\"0\" style=\"background-color: undefined;\">hi</mark>" := by
  rw [highlightSelectedText_insertion_eq _ _ _ _ _ _ (by decide) (by decide)]
  have h : getColorIndexOffset "" [] 0 = 0 := by
    rw [getColorIndexOffset_of_none _ _ _ (by decide)]
    norm_num
  rw [h]
  decide

/-- C9 (code bug): `hexToRGB` never fails.  On a string with no hex digits it
returns `{r := 0, g := 0, b := 0}` (`parseInt` gives `NaN`, the bitwise
channel extraction coerces it to `0`), and on a string with a valid hex
prefix it silently decodes that prefix (`"#12zz56"` parses as `0x12`);
no `InvalidColorFormat` error exists anywhere in the source. -/
theorem C9_invalid_hex_still_returns_rgb :
    hexToRGB "zz" = ⟨0, 0, 0⟩ ∧ hexToRGB "#12zz56" = ⟨0, 0, 18⟩ ∧ hexToRGB "" = ⟨0, 0, 0⟩ := by
  refine ⟨by decide, by decide, by decide⟩

/-- C6 (confirmed): a mark span of the current line is collected for removal
exactly when `selectedStart < markEnd` and `selectedEnd > markStart`; the
spec's two boundary examples: selection `(2,5)` against span `(4,8)` overlaps,
selection `(0,2)` against span `(2,8)` merely touches and does not. -/
theorem C6_overlap_classification :
    (∀ (line : String) (f t s e : Nat),
      (s, e) ∈ marksToRemove line f t ↔ ((s, e) ∈ findMarksInLine line ∧ f < e ∧ t > s)) ∧
    overlapsSelection 2 5 (4, 8) = true ∧ overlapsSelection 0 2 (2, 8) = false := by
  refine ⟨fun line f t s e => ?_, by decide, by decide⟩
  simp [marksToRemove, List.mem_filter, overlapsSelection]

/-- C10 (confirmed): as soon as the document already contains a mark with a
`highlightindex` attribute, the toggle is a deterministic function of the
line, selection, document, and palette: the random source is never consulted,
so two runs coincide. -/
theorem C10_deterministic_with_attribute (line : String) (f t : Nat) (content : String)
    (colors : List String) (rand₁ rand₂ : ℚ)
    (_hcolors : colors ≠ [])
    (h : findFirstHighlightIndex content ≠ none) :
    highlightSelectedText line f t content colors rand₁ =
      highlightSelectedText line f t content colors rand₂ := by
  obtain ⟨v, hv⟩ : ∃ v, findFirstHighlightIndex content = some v := by
    cases hfind : findFirstHighlightIndex content with
    | none => exact absurd hfind h
    | some v => exact ⟨v, rfl⟩
  have hoff : getColorIndexOffset content colors rand₁ =
      getColorIndexOffset content colors rand₂ := by
    rw [getColorIndexOffset_of_some _ _ _ _ hv, getColorIndexOffset_of_some _ _ _ _ hv]
  simp only [highlightSelectedText, hoff]

/-- Witness for C10 at a concrete document carrying `highlightindex=7`,
palette of three colors, and two different random draws. -/
theorem C10_deterministic_with_attribute_witness :
    (["#0000ff", "#00ff00", "#ff0000"] : List String) ≠ [] ∧
    findFirstHighlightIndex "<mark highlightindex=7>a</mark>" ≠ none ∧
    highlightSelectedText "hi" 0 2 "<mark highlightindex=7>a</mark>"
        ["#0000ff", "#00ff00", "#ff0000"] 0 =
      highlightSelectedText "hi" 0 2 "<mark highlightindex=7>a</mark>"
        ["#0000ff", "#00ff00", "#ff0000"] 1 :=
  ⟨by decide, by decide,
    C10_deterministic_with_attribute "hi" 0 2 "<mark highlightindex=7>a</mark>"
      ["#0000ff", "#00ff00", "#ff0000"] 0 1 (by decide) (by decide)⟩

/-- C3 counterexample: `getRandomBetween(0, colors.length)` computes
`Math.floor(rand * (length + 1))`, whose range is `[0, length]` inclusive.
With a palette of 3 colors and the possible draw `rand = 3/4`, the fresh
offset is `3 = paletteLength`, which the claim's range `[0, 3)` excludes —
and the toggle then even reads `colors[3]`, inserting
`background-color: undefined`. -/
theorem C3_offset_can_equal_palette_length :
    (["#0000ff", "#00ff00", "#ff0000"] : List String).length = 3 ∧
    getColorIndexOffset "" ["#0000ff", "#00ff00", "#ff0000"] (3 / 4) = 3 ∧
    highlightSelectedText "hi" 0 2 "" ["#0000ff", "#00ff00", "#ff0000"] (3 / 4) =
      .insertion "<mark highlightindex=\"3\" style=\"background-color: undefined;\">hi</mark>" := by
  have hoff : getColorIndexOffset "" ["#0000ff", "#00ff00", "#ff0000"] (3 / 4) = 3 := by
    rw [getColorIndexOffset_of_none _ _ _ (by decide)]
    norm_num
  refine ⟨by decide, hoff, ?_⟩
  rw [highlightSelectedText_insertion_eq _ _ _ _ _ _ (by decide) (by decide), hoff]
  decide

/-- C3 as amended: on the very first insertion into a document with no mark
and no `highlightindex` attribute, the fresh offset `⌊rand * (n + 1)⌋` lies in
the inclusive range `[0, n]` (`n = paletteLength` is attainable, so the draw
is over `n + 1` values, not the claimed `[0, n)`), and it is embedded as the
`highlightindex` attribute of the newly inserted mark. -/
theorem C3_fresh_offset_range_and_attribute (line : String) (f t : Nat) (content : String)
    (colors : List String) (rand : ℚ)
    (h0 : 0 ≤ rand) (h1 : rand < 1)
    (hfind : findFirstHighlightIndex content = none)
    (hcount : countMarkElements content = 0)
    (hsel : (jsSlice line.data f t).isEmpty = false)
    (hrem : marksToRemove line f t = []) :
    0 ≤ getColorIndexOffset content colors rand ∧
    getColorIndexOffset content colors rand ≤ (colors.length : ℤ) ∧
    highlightSelectedText line f t content colors rand =
      .insertion ("<mark highlightindex=\"" ++
        toString (getColorIndexOffset content colors rand) ++
        "\" style=\"background-color: " ++
        jsIndexString colors (if colors.length = 0 then none
          else some (getColorIndexOffset content colors rand)) ++ ";\">" ++
        (⟨jsSlice line.data f t⟩ : String) ++ "</mark>") := by
  have hoff := getColorIndexOffset_of_none content colors rand hfind
  have hpos : (0 : ℚ) < (colors.length : ℚ) + 1 := by positivity
  refine ⟨?_, ?_, ?_⟩
  · rw [hoff]
    exact Int.le_floor.mpr (by exact_mod_cast mul_nonneg h0 (le_of_lt hpos))
  · rw [hoff]
    have hlt : rand * ((colors.length : ℚ) + 1) < (colors.length : ℚ) + 1 :=
      mul_lt_of_lt_one_left hpos h1
    have hfl : ⌊rand * ((colors.length : ℚ) + 1)⌋ < (colors.length : ℤ) + 1 := by
      apply Int.floor_lt.mpr
      push_cast
      exact hlt
    omega
  · rw [highlightSelectedText_insertion_eq _ _ _ _ _ _ hsel hrem, hcount]
    simp [buildHighlight]

/-- Witness for C3's amended statement: empty document, palette of 3 colors,
`rand = 0`, selection `[0, 2)` of the line `"hi"`. -/
theorem C3_fresh_offset_range_and_attribute_witness :
    (0 : ℚ) ≤ 0 ∧ (0 : ℚ) < 1 ∧
    findFirstHighlightIndex "" = none ∧
    countMarkElements "" = 0 ∧
    (jsSlice "hi".data 0 2).isEmpty = false ∧
    marksToRemove "hi" 0 2 = [] ∧
    (0 ≤ getColorIndexOffset "" ["#0000ff", "#00ff00", "#ff0000"] 0 ∧
     getColorIndexOffset "" ["#0000ff", "#00ff00", "#ff0000"] 0 ≤
       ((["#0000ff", "#00ff00", "#ff0000"] : List String).length : ℤ) ∧
     highlightSelectedText "hi" 0 2 "" ["#0000ff", "#00ff00", "#ff0000"] 0 =
       .insertion ("<mark highlightindex=\"" ++
         toString (getColorIndexOffset "" ["#0000ff", "#00ff00", "#ff0000"] 0) ++
         "\" style=\"background-color: " ++
         jsIndexString ["#0000ff", "#00ff00", "#ff0000"]
           (if (["#0000ff", "#00ff00", "#ff0000"] : List String).length = 0 then none
            else some (getColorIndexOffset "" ["#0000ff", "#00ff00", "#ff0000"] 0)) ++ ";\">" ++
         (⟨jsSlice "hi".data 0 2⟩ : String) ++ "</mark>")) :=
  ⟨le_refl 0, zero_lt_one, by decide, by decide, by decide, by decide,
    C3_fresh_offset_range_and_attribute "hi" 0 2 "" ["#0000ff", "#00ff00", "#ff0000"] 0
      (le_refl 0) zero_lt_one (by decide) (by decide) (by decide) (by decide)⟩

/-- C4 counterexample: `getColorIndexOffset` puts the attribute's digits
through `parseInt(match[1], 10) | 0`, a signed 32-bit truncation: a first
tagged mark carrying `highlightindex=4294967296` (which is `2^32`) yields
offset `0`, not the attribute's integer value. -/
theorem C4_attribute_truncated_to_int32 :
    findFirstHighlightIndex "<mark highlightindex=4294967296>a</mark>" = some 4294967296 ∧
    getColorIndexOffset "<mark highlightindex=4294967296>a</mark>"
      ["#0000ff", "#00ff00", "#ff0000"] 0 = 0 ∧
    (4294967296 : ℤ) ≠ 0 := by
  refine ⟨by decide, by decide, by decide⟩

/-- C4 as amended: on an insertion into a document whose mark count is
positive and whose first `highlightindex`-tagged mark carries the value `v`,
the offset used is `toInt32 v` — the attribute value reduced to a signed
32-bit integer, equal to `v` whenever `v < 2^31` — and the newly inserted
markup carries no `highlightindex` attribute. -/
theorem C4_offset_from_first_tagged_mark (line : String) (f t : Nat) (content : String)
    (colors : List String) (rand : ℚ) (v : Nat)
    (hsel : (jsSlice line.data f t).isEmpty = false)
    (hrem : marksToRemove line f t = [])
    (hcount : countMarkElements content ≠ 0)
    (hfind : findFirstHighlightIndex content = some v) :
    getColorIndexOffset content colors rand = toInt32 v ∧
    (v < 2 ^ 31 → toInt32 v = (v : ℤ)) ∧
    highlightSelectedText line f t content colors rand =
      .insertion ("<mark style=\"background-color: " ++
        jsIndexString colors (if colors.length = 0 then none
          else some (toInt32 v + ((countMarkElements content) % colors.length : Nat))) ++
        ";\">" ++ (⟨jsSlice line.data f t⟩ : String) ++ "</mark>") := by
  have hoff := getColorIndexOffset_of_some content colors rand v hfind
  refine ⟨hoff, ?_, ?_⟩
  · intro hv
    simp only [toInt32]
    rw [Nat.mod_eq_of_lt (by omega)]
    rw [if_pos hv]
  · rw [highlightSelectedText_insertion_eq _ _ _ _ _ _ hsel hrem, hoff]
    simp [buildHighlight, hcount]

/-- Witness for C4's amended statement: document `<mark highlightindex=7>a</mark>`
(one mark, attribute value 7), palette of 3 colors, selection `[0, 2)` of
`"hi"`. -/
theorem C4_offset_from_first_tagged_mark_witness :
    (jsSlice "hi".data 0 2).isEmpty = false ∧
    marksToRemove "hi" 0 2 = [] ∧
    countMarkElements "<mark highlightindex=7>a</mark>" ≠ 0 ∧
    findFirstHighlightIndex "<mark highlightindex=7>a</mark>" = some 7 ∧
    (getColorIndexOffset "<mark highlightindex=7>a</mark>"
        ["#0000ff", "#00ff00", "#ff0000"] 0 = toInt32 7 ∧
     (7 < 2 ^ 31 → toInt32 7 = (7 : ℤ)) ∧
     highlightSelectedText "hi" 0 2 "<mark highlightindex=7>a</mark>"
        ["#0000ff", "#00ff00", "#ff0000"] 0 =
       .insertion ("<mark style=\"background-color: " ++
         jsIndexString ["#0000ff", "#00ff00", "#ff0000"]
           (if (["#0000ff", "#00ff00", "#ff0000"] : List String).length = 0 then none
            else some (toInt32 7 +
              ((countMarkElements "<mark highlightindex=7>a</mark>") %
                (["#0000ff", "#00ff00", "#ff0000"] : List String).length : Nat))) ++
         ";\">" ++ (⟨jsSlice "hi".data 0 2⟩ : String) ++ "</mark>")) :=
  ⟨by decide, by decide, by decide, by decide,
    C4_offset_from_first_tagged_mark "hi" 0 2 "<mark highlightindex=7>a</mark>"
      ["#0000ff", "#00ff00", "#ff0000"] 0 7 (by decide) (by decide) (by decide) (by decide)⟩

/-- C5 (confirmed): toggling on the line `a<mark style="x">hi</mark>b` with
any non-empty selection lying fully inside the mark span `[1, 26)` takes the
removal path and produces the line `ahib`: exactly the `<mark ...>` and
`</mark>` tags are stripped and the inner text is kept verbatim (whatever the
document, palette and random draw are). -/
theorem C5_removal_strips_tags (content : String) (colors : List String) (rand : ℚ)
    (f t : Nat) (h1 : 1 ≤ f) (h2 : f < t) (h3 : t ≤ 26) :
    highlightSelectedText "a<mark style=\"x\">hi</mark>b" f t content colors rand =
      .removal "ahib" := by
  have hmarks : findMarksInLine "a<mark style=\"x\">hi</mark>b" = [(1, 26)] := by decide
  have hov : overlapsSelection f t (1, 26) = true := by
    simp only [overlapsSelection]
    simp only [decide_eq_true_eq]
    omega
  have hrem : marksToRemove "a<mark style=\"x\">hi</mark>b" f t = [(1, 26)] := by
    rw [marksToRemove, hmarks]
    simp [List.filter, hov]
  have hlen : (jsSlice "a<mark style=\"x\">hi</mark>b".data f t).length = min t 27 - f := by
    simp [jsSlice]
  have hsel : (jsSlice "a<mark style=\"x\">hi</mark>b".data f t).isEmpty = false := by
    apply Bool.eq_false_iff.mpr
    intro hemp
    have := List.isEmpty_iff_length_eq_zero.mp hemp
    omega
  simp only [highlightSelectedText, hsel, hrem]
  rw [if_neg (by decide : ¬(false = true)),
    if_neg (by decide : ¬([((1 : Nat), (26 : Nat))].isEmpty = true))]
  decide

/-- Witness for C5 at the concrete selection `[17, 19)` (the inner text
`hi`), with an empty document and palette. -/
theorem C5_removal_strips_tags_witness :
    1 ≤ 17 ∧ 17 < 19 ∧ 19 ≤ 26 ∧
    highlightSelectedText "a<mark style=\"x\">hi</mark>b" 17 19 "" ([] : List String) 0 =
      .removal "ahib" :=
  ⟨by decide, by decide, by decide,
    C5_removal_strips_tags "" [] 0 17 19 (by decide) (by decide) (by decide)⟩

/-! ## Hex round-trip (C7) -/

theorem char_eq_of_toNat_eq {a b : Char} (h : a.toNat = b.toNat) : a = b :=
  Char.eq_of_val_eq (UInt32.ext h)

theorem hexDigitVal_lt {c : Char} {v : Nat} (h : hexDigitVal c = some v) : v < 16 := by
  simp only [hexDigitVal] at h
  split_ifs at h <;> simp_all <;> omega

theorem hexDigitVal_toNat_cases {c : Char} {v : Nat} (h : hexDigitVal c = some v) :
    (48 ≤ c.toNat ∧ c.toNat ≤ 57 ∧ v = c.toNat - 48) ∨
    (97 ≤ c.toNat ∧ c.toNat ≤ 102 ∧ v = c.toNat - 87) ∨
    (65 ≤ c.toNat ∧ c.toNat ≤ 70 ∧ v = c.toNat - 55) := by
  simp only [hexDigitVal] at h
  split_ifs at h <;> simp_all

theorem hexDigitVal_digitChar {c : Char} {v : Nat} (h : hexDigitVal c = some v) :
    Nat.digitChar v = lowerHexChar c := by
  apply char_eq_of_toNat_eq
  have hc := hexDigitVal_toNat_cases h
  simp only [lowerHexChar]
  set n := c.toNat with hn
  rcases hc with ⟨hl, hr, rfl⟩ | ⟨hl, hr, rfl⟩ | ⟨hl, hr, rfl⟩ <;> interval_cases n <;> decide

theorem hexDigitVal_not_ws {c : Char} {v : Nat} (h : hexDigitVal c = some v) :
    isJsWs c = false := by
  have hc := hexDigitVal_toNat_cases h
  simp only [isJsWs, decide_eq_false_iff_not]
  omega

theorem hexDigitVal_ne {c : Char} {v : Nat} (h : hexDigitVal c = some v) :
    c ≠ '-' ∧ c ≠ '+' ∧ c ≠ 'x' ∧ c ≠ 'X' := by
  have hc := hexDigitVal_toNat_cases h
  refine ⟨fun he => ?_, fun he => ?_, fun he => ?_, fun he => ?_⟩ <;>
      subst he <;>
    simp only [show Char.toNat '-' = 45 from rfl, show Char.toNat '+' = 43 from rfl,
      show Char.toNat 'x' = 120 from rfl, show Char.toNat 'X' = 88 from rfl] at hc <;>
    omega

theorem parseHexDigits_all_hex (l : List Char) (hne : l ≠ [])
    (h : ∀ c ∈ l, (hexDigitVal c).isSome) : parseHexDigits l = some (hexFold l) := by
  unfold parseHexDigits
  rw [List.takeWhile_eq_self_iff.mpr h]
  cases l with
  | nil => exact absurd rfl hne
  | cons c rest => rfl

theorem strip0x_all_hex (l : List Char) (h : ∀ c ∈ l, (hexDigitVal c).isSome) :
    strip0x l = l := by
  cases l with
  | nil => rfl
  | cons a rest =>
    cases rest with
    | nil => rfl
    | cons b rb =>
      obtain ⟨w, hw⟩ := Option.isSome_iff_exists.mp (h b (by simp))
      have hb := hexDigitVal_ne hw
      simp only [strip0x]
      rw [if_neg]
      rintro ⟨rfl, rfl | rfl⟩
      · exact hb.2.2.1 rfl
      · exact hb.2.2.2 rfl

theorem jsParseIntHex_all_hex (l : List Char) (hne : l ≠ [])
    (h : ∀ c ∈ l, (hexDigitVal c).isSome) :
    jsParseIntHex l = some ((hexFold l : Nat) : ℤ) := by
  obtain ⟨c, rest, rfl⟩ := List.exists_cons_of_ne_nil hne
  obtain ⟨v, hv⟩ := Option.isSome_iff_exists.mp (h c (by simp))
  have hne2 := hexDigitVal_ne hv
  unfold jsParseIntHex
  rw [List.dropWhile_cons, if_neg (by rw [hexDigitVal_not_ws hv]; exact Bool.false_ne_true)]
  simp only []
  rw [if_neg hne2.1, if_neg hne2.2.1, strip0x_all_hex _ h, parseHexDigits_all_hex _ hne h]
  rfl

set_option maxRecDepth 10000 in
theorem toHex_eval : ∀ x : Nat, x < 256 →
    toHex x = [Nat.digitChar (x / 16), Nat.digitChar (x % 16)] := by decide

theorem toHex_pair (hi lo : Nat) (hh : hi < 16) (hl : lo < 16) :
    toHex (16 * hi + lo) = [Nat.digitChar hi, Nat.digitChar lo] := by
  have he := toHex_eval (16 * hi + lo) (by omega)
  rw [he, show (16 * hi + lo) / 16 = hi by omega, show (16 * hi + lo) % 16 = lo by omega]

theorem rgbOfParsed_six (v0 v1 v2 v3 v4 v5 : Nat)
    (h0 : v0 < 16) (h1 : v1 < 16) (h2 : v2 < 16) (h3 : v3 < 16) (h4 : v4 < 16) (h5 : v5 < 16) :
    rgbOfParsed (some ((16 * (16 * (16 * (16 * (16 * v0 + v1) + v2) + v3) + v4) + v5 : Nat) : ℤ)) =
      ⟨16 * v0 + v1, 16 * v2 + v3, 16 * v4 + v5⟩ := by
  have hb : (16 * (16 * (16 * (16 * (16 * v0 + v1) + v2) + v3) + v4) + v5) < 2 ^ 32 := by omega
  simp only [rgbOfParsed]
  rw [Int.emod_eq_of_lt (by positivity) (by exact_mod_cast hb)]
  simp only [Int.toNat_natCast]
  congr 1 <;> omega

theorem list_len_six {α : Type} (l : List α) (h : l.length = 6) :
    ∃ a b c d e f, l = [a, b, c, d, e, f] := by
  match l, h with
  | [a, b, c, d, e, f], _ => exact ⟨a, b, c, d, e, f, rfl⟩

theorem roundtrip_six (l : List Char) (hlen : l.length = 6)
    (hhex : ∀ c ∈ l, (hexDigitVal c).isSome) :
    rgbToHex (rgbOfParsed (jsParseIntHex l)) = ⟨'#' :: l.map lowerHexChar⟩ := by
  obtain ⟨c0, c1, c2, c3, c4, c5, rfl⟩ := list_len_six l hlen
  obtain ⟨v0, hv0⟩ := Option.isSome_iff_exists.mp (hhex c0 (by simp))
  obtain ⟨v1, hv1⟩ := Option.isSome_iff_exists.mp (hhex c1 (by simp))
  obtain ⟨v2, hv2⟩ := Option.isSome_iff_exists.mp (hhex c2 (by simp))
  obtain ⟨v3, hv3⟩ := Option.isSome_iff_exists.mp (hhex c3 (by simp))
  obtain ⟨v4, hv4⟩ := Option.isSome_iff_exists.mp (hhex c4 (by simp))
  obtain ⟨v5, hv5⟩ := Option.isSome_iff_exists.mp (hhex c5 (by simp))
  rw [jsParseIntHex_all_hex _ (by simp) hhex]
  have hfold : hexFold [c0, c1, c2, c3, c4, c5] =
      16 * (16 * (16 * (16 * (16 * v0 + v1) + v2) + v3) + v4) + v5 := by
    simp [hexFold, hv0, hv1, hv2, hv3, hv4, hv5]
  rw [hfold, rgbOfParsed_six v0 v1 v2 v3 v4 v5 (hexDigitVal_lt hv0) (hexDigitVal_lt hv1)
    (hexDigitVal_lt hv2) (hexDigitVal_lt hv3) (hexDigitVal_lt hv4) (hexDigitVal_lt hv5)]
  show (⟨'#' :: (toHex (16 * v0 + v1) ++ toHex (16 * v2 + v3) ++ toHex (16 * v4 + v5))⟩ : String) = _
  rw [toHex_pair v0 v1 (hexDigitVal_lt hv0) (hexDigitVal_lt hv1),
    toHex_pair v2 v3 (hexDigitVal_lt hv2) (hexDigitVal_lt hv3),
    toHex_pair v4 v5 (hexDigitVal_lt hv4) (hexDigitVal_lt hv5),
    hexDigitVal_digitChar hv0, hexDigitVal_digitChar hv1, hexDigitVal_digitChar hv2,
    hexDigitVal_digitChar hv3, hexDigitVal_digitChar hv4, hexDigitVal_digitChar hv5]
  rfl

theorem C7_roundtrip (s : String) (h : isValidHexColor s = true) :
    rgbToHex (hexToRGB s) = canonicalHex s := by
  have hval : ((stripHash s.data).length = 3 ∨ (stripHash s.data).length = 6) ∧
      ∀ c ∈ stripHash s.data, (hexDigitVal c).isSome := by
    simpa [isValidHexColor, List.all_eq_true] using h
  have hexp : hexToRGB s = rgbOfParsed (jsParseIntHex (expandShorthand (stripHash s.data))) := rfl
  have hcan : canonicalHex s = ⟨'#' :: (expandShorthand (stripHash s.data)).map lowerHexChar⟩ := rfl
  rw [hexp, hcan]
  obtain ⟨hlen36, hhex⟩ := hval
  generalize hgen : stripHash s.data = l at hlen36 hhex ⊢
  rcases hlen36 with hlen | hlen
  · obtain ⟨a, b, c, rfl⟩ : ∃ a b c, l = [a, b, c] := by
      match l, hlen with
      | [a, b, c], _ => exact ⟨a, b, c, rfl⟩
    rw [show expandShorthand [a, b, c] = [a, a, b, b, c, c] from rfl]
    apply roundtrip_six _ (by rfl)
    intro x hx
    simp only [List.mem_cons, List.not_mem_nil, or_false] at hx
    rcases hx with rfl | rfl | rfl | rfl | rfl | rfl <;> exact hhex _ (by simp)
  · rw [show expandShorthand l = l from by rw [expandShorthand, if_neg (by omega)]]
    exact roundtrip_six _ hlen hhex

/-- Witness for C7 at the 3-digit uppercase-mixed input `#AbC`. -/
theorem C7_roundtrip_witness :
    isValidHexColor "#AbC" = true ∧ rgbToHex (hexToRGB "#AbC") = canonicalHex "#AbC" ∧
    canonicalHex "#AbC" = "#aabbcc" :=
  ⟨by decide, C7_roundtrip "#AbC" (by decide), by decide⟩

/-! ## Sort idempotence and stability (C8) -/

theorem rgbOfParsed_channels_lt (o : Option ℤ) :
    (rgbOfParsed o).r < 256 ∧ (rgbOfParsed o).g < 256 ∧ (rgbOfParsed o).b < 256 := by
  cases o with
  | none => simp [rgbOfParsed]
  | some n =>
    simp only [rgbOfParsed]
    refine ⟨?_, ?_, ?_⟩ <;> omega

theorem hexToRGB_channels_lt (s : String) :
    (hexToRGB s).r < 256 ∧ (hexToRGB s).g < 256 ∧ (hexToRGB s).b < 256 :=
  rgbOfParsed_channels_lt _

set_option maxRecDepth 2000 in
theorem hexDigitVal_digitChar_inv : ∀ v : Nat, v < 16 →
    hexDigitVal (Nat.digitChar v) = some v := by decide

theorem roundtrip_rgb (c : RGB) (hr : c.r < 256) (hg : c.g < 256) (hb : c.b < 256) :
    hexToRGB (rgbToHex c) = c := by
  obtain ⟨r, g, b⟩ := c
  simp only at hr hg hb
  have hdata : (rgbToHex ⟨r, g, b⟩).data =
      '#' :: [Nat.digitChar (r / 16), Nat.digitChar (r % 16), Nat.digitChar (g / 16),
        Nat.digitChar (g % 16), Nat.digitChar (b / 16), Nat.digitChar (b % 16)] := by
    simp [rgbToHex, toHex_eval r hr, toHex_eval g hg, toHex_eval b hb]
  have hhex : ∀ x ∈ ([Nat.digitChar (r / 16), Nat.digitChar (r % 16), Nat.digitChar (g / 16),
      Nat.digitChar (g % 16), Nat.digitChar (b / 16), Nat.digitChar (b % 16)] : List Char),
      (hexDigitVal x).isSome := by
    intro x hx
    simp only [List.mem_cons, List.not_mem_nil, or_false] at hx
    rcases hx with rfl | rfl | rfl | rfl | rfl | rfl <;>
      rw [hexDigitVal_digitChar_inv _ (by omega)] <;> rfl
  rw [show hexToRGB (rgbToHex ⟨r, g, b⟩) =
    rgbOfParsed (jsParseIntHex (expandShorthand (stripHash (rgbToHex ⟨r, g, b⟩).data))) from rfl]
  rw [hdata]
  rw [show stripHash ('#' :: [Nat.digitChar (r / 16), Nat.digitChar (r % 16),
    Nat.digitChar (g / 16), Nat.digitChar (g % 16), Nat.digitChar (b / 16),
    Nat.digitChar (b % 16)]) = [Nat.digitChar (r / 16), Nat.digitChar (r % 16),
    Nat.digitChar (g / 16), Nat.digitChar (g % 16), Nat.digitChar (b / 16),
    Nat.digitChar (b % 16)] from rfl]
  rw [show expandShorthand [Nat.digitChar (r / 16), Nat.digitChar (r % 16),
    Nat.digitChar (g / 16), Nat.digitChar (g % 16), Nat.digitChar (b / 16),
    Nat.digitChar (b % 16)] = [Nat.digitChar (r / 16), Nat.digitChar (r % 16),
    Nat.digitChar (g / 16), Nat.digitChar (g % 16), Nat.digitChar (b / 16),
    Nat.digitChar (b % 16)] from by rw [expandShorthand, if_neg (by simp)]]
  rw [jsParseIntHex_all_hex _ (by simp) hhex]
  have hfold : hexFold [Nat.digitChar (r / 16), Nat.digitChar (r % 16), Nat.digitChar (g / 16),
      Nat.digitChar (g % 16), Nat.digitChar (b / 16), Nat.digitChar (b % 16)] =
      16 * (16 * (16 * (16 * (16 * (r / 16) + r % 16) + g / 16) + g % 16) + b / 16) + b % 16 := by
    simp [hexFold, hexDigitVal_digitChar_inv _ (show r / 16 < 16 by omega),
      hexDigitVal_digitChar_inv _ (show r % 16 < 16 by omega),
      hexDigitVal_digitChar_inv _ (show g / 16 < 16 by omega),
      hexDigitVal_digitChar_inv _ (show g % 16 < 16 by omega),
      hexDigitVal_digitChar_inv _ (show b / 16 < 16 by omega),
      hexDigitVal_digitChar_inv _ (show b % 16 < 16 by omega)]
  rw [hfold, rgbOfParsed_six _ _ _ _ _ _ (by omega) (by omega) (by omega) (by omega)
    (by omega) (by omega)]
  congr 1 <;> omega

theorem filter_hue_orderedInsert (h : ℚ) (a : String × RGB) (l : List (String × RGB)) :
    (l.orderedInsert hueOrder a).filter (fun c => decide (rgbToHue c.2 = h)) =
      if rgbToHue a.2 = h
      then a :: l.filter (fun c => decide (rgbToHue c.2 = h))
      else l.filter (fun c => decide (rgbToHue c.2 = h)) := by
  induction l with
  | nil =>
    simp only [List.orderedInsert, List.filter]
    split_ifs with hah <;> simp [hah]
  | cons b tl ih =>
    rw [List.orderedInsert]
    by_cases hab : hueOrder a b
    · rw [if_pos hab]
      simp only [List.filter_cons]
      split_ifs with h1 h2 <;> simp_all
    · rw [if_neg hab]
      simp only [List.filter_cons]
      rw [ih]
      by_cases hah : rgbToHue a.2 = h
      · have hbh : ¬(rgbToHue b.2 = h) := by
          have hlt : rgbToHue a.2 < rgbToHue b.2 := lt_of_not_le hab
          intro he
          rw [he, ← hah] at hlt
          exact lt_irrefl _ hlt
        simp [hah, hbh]
      · simp [hah]

theorem filter_hue_insertionSort (h : ℚ) (l : List (String × RGB)) :
    (l.insertionSort hueOrder).filter (fun c => decide (rgbToHue c.2 = h)) =
      l.filter (fun c => decide (rgbToHue c.2 = h)) := by
  induction l with
  | nil => rfl
  | cons a tl ih =>
    rw [List.insertionSort, filter_hue_orderedInsert, ih]
    by_cases hah : rgbToHue a.2 = h
    · simp [List.filter_cons, hah]
    · simp [List.filter_cons, hah]

theorem sortColors_idem (xs : List String) :
    sortColorsByBlueToRed (sortColorsByBlueToRed xs) = sortColorsByBlueToRed xs := by
  unfold sortColorsByBlueToRed
  set L := (xs.map fun hex => (hex, hexToRGB hex)).insertionSort hueOrder with hL
  have hq : ((L.map fun c => rgbToHex c.2).map fun hex => (hex, hexToRGB hex)) =
      L.map fun c => (rgbToHex c.2, c.2) := by
    rw [List.map_map]
    apply List.map_congr_left
    intro a ha
    have hmem : a ∈ xs.map fun hex => (hex, hexToRGB hex) :=
      (List.perm_insertionSort hueOrder _).subset ha
    obtain ⟨s, _, heq⟩ := List.mem_map.mp hmem
    have ha2 : a.2 = hexToRGB s := by rw [← heq]
    have hc := hexToRGB_channels_lt s
    simp only [Function.comp_apply]
    rw [ha2, roundtrip_rgb _ hc.1 hc.2.1 hc.2.2]
  rw [hq]
  have hsorted : (L.map fun c => ((rgbToHex c.2, c.2) : String × RGB)).Sorted hueOrder := by
    have hs := List.sorted_insertionSort hueOrder (xs.map fun hex => (hex, hexToRGB hex))
    exact List.Pairwise.map _ (fun a b hab => hab) hs
  rw [List.Sorted.insertionSort_eq hsorted, List.map_map]
  apply List.map_congr_left
  intro a _
  rfl

theorem sortColors_stable (xs : List String) (h : ℚ) :
    (sortColorsByBlueToRed xs).filter (fun s => decide (rgbToHue (hexToRGB s) = h)) =
      (xs.filter (fun s => decide (rgbToHue (hexToRGB s) = h))).map
        (fun s => rgbToHex (hexToRGB s)) := by
  unfold sortColorsByBlueToRed
  rw [List.filter_map]
  have hcong : ∀ a ∈ (xs.map fun hex => (hex, hexToRGB hex)).insertionSort hueOrder,
      ((fun s => decide (rgbToHue (hexToRGB s) = h)) ∘ (fun c => rgbToHex c.2)) a =
        (fun c => decide (rgbToHue c.2 = h)) a := by
    intro a ha
    obtain ⟨s, _, heq⟩ := List.mem_map.mp ((List.perm_insertionSort hueOrder _).subset ha)
    have ha2 : a.2 = hexToRGB s := by rw [← heq]
    have hc := hexToRGB_channels_lt s
    simp only [Function.comp_apply]
    rw [ha2, roundtrip_rgb _ hc.1 hc.2.1 hc.2.2]
  rw [List.filter_congr hcong, filter_hue_insertionSort, List.filter_map, List.map_map]
  rfl

/-- C8 (confirmed): `sortColorsByBlueToRed` is idempotent — its output (which
is hue-sorted and canonicalized) sorts to itself — and stable: for every hue
value `h`, the equal-hue elements of the output are exactly the equal-hue
elements of the input, canonicalized, in their original relative order. -/
theorem C8_sort_idempotent_and_stable :
    (∀ xs : List String,
      sortColorsByBlueToRed (sortColorsByBlueToRed xs) = sortColorsByBlueToRed xs) ∧
    (∀ (xs : List String) (h : ℚ),
      (sortColorsByBlueToRed xs).filter (fun s => decide (rgbToHue (hexToRGB s) = h)) =
        (xs.filter (fun s => decide (rgbToHue (hexToRGB s) = h))).map
          (fun s => rgbToHex (hexToRGB s))) :=
  ⟨sortColors_idem, sortColors_stable⟩
